import Mathlib

/-!
# Verification of the inventory-managoat domain engine

Shallow embedding of the inventory engine (`src/manager/src/lib.rs`) and of
the two derived-query commands of the CLI front end (`src/cli/src/main.rs`,
`print_missing` and `print_expired`).

Modelling conventions:
* `f32` quantities become `Rat` (all quantities appearing in the claims are
  exactly representable, and the operations used — subtraction, comparison,
  addition — are exact on them);
* `u32` ids become `Nat` (id allocation is `max + 1`; 32-bit overflow is not
  reachable in any claim and the source would panic there in debug builds);
* `SystemTime` becomes `Nat` and `Duration` becomes `Nat`; the wall-clock
  reads (`SystemTime::now()`) of one top-level operation are threaded as a
  single explicit `now` parameter;
* a Rust `panic!`/`expect` and non-termination are modelled by `Option`
  (`none` = the operation aborts, no state is produced);
* in-place mutation through `iter_mut().find(...)` becomes a functional
  update of the first list element matching the same predicate.
-/

/-- `ItemType` of `src/manager/src/lib.rs` (serialisable metadata fields are
kept; `Builder`-only attributes are irrelevant to the semantics). -/
structure ItemType where
  id : Nat
  name : String
  minimum_quantity : Rat
  ttl : Option Nat
  opened_by_default : Bool
deriving Repr, DecidableEq

/-- `ItemInstance` of `src/manager/src/lib.rs`. -/
structure ItemInstance where
  id : Nat
  item_type : Nat
  quantity : Rat
  model : Option String
  serial : Option String
  extra : Option String
  location : Option String
  value : Option Rat
  opened_at : Option Nat
  expires_at : Option Nat
  added_at : Option Nat
  removed_at : Option Nat
deriving Repr, DecidableEq

/-- `Inventory` of `src/manager/src/lib.rs`: the two owned collections. -/
structure Inventory where
  item_types : List ItemType
  item_instances : List ItemInstance
deriving Repr, DecidableEq

/-- `InventoryError` of `src/manager/src/lib.rs`. -/
inductive InventoryError where
  | UnknownItemType
  | UnknownItemInstance
deriving Repr, DecidableEq

/-- Functional counterpart of mutating through `iter_mut().find(p)`:
rewrite the first element satisfying `p` with `f`, leave the rest alone.
If no element matches, the list is unchanged (the Rust `else` branches only
print a message). -/
def updateFirst {α : Type} (p : α → Bool) (f : α → α) : List α → List α
  | [] => []
  | x :: rest => if p x then f x :: rest else x :: updateFirst p f rest

namespace Inventory

/-- `Inventory::free_type_id`: `item_types.iter().map(|it| it.id).max().unwrap_or(0) + 1`. -/
def free_type_id (inv : Inventory) : Nat :=
  (inv.item_types.map (fun it => it.id)).foldr max 0 + 1

/-- `Inventory::free_instance_id`: same allocation over `item_instances`. -/
def free_instance_id (inv : Inventory) : Nat :=
  (inv.item_instances.map (fun ii => ii.id)).foldr max 0 + 1

/-- `Inventory::add_item_type`: overwrite the id with the next free one,
push, return the id. -/
def add_item_type (inv : Inventory) (item_type : ItemType) : Inventory × Nat :=
  let free_id := inv.free_type_id
  ({ inv with item_types := inv.item_types ++ [{ item_type with id := free_id }] }, free_id)

/-- `Inventory::has_item_type`. -/
def has_item_type (inv : Inventory) (id : Nat) : Bool :=
  inv.item_types.any (fun ty => ty.id == id)

/-- `Inventory::add_item_instance`: allocate the id, then require the
referenced type to exist (else `Err(UnknownItemType)`, nothing pushed); if
the type is `opened_by_default`, set `opened_at = now` and, given a `ttl`,
`expires_at = now + ttl`; finally stamp `added_at = now` and push. -/
def add_item_instance (inv : Inventory) (item_instance : ItemInstance) (now : Nat) :
    Except InventoryError (Inventory × Nat) :=
  let free_id := inv.free_instance_id
  let ii0 := { item_instance with id := free_id }
  match inv.item_types.find? (fun it => it.id == ii0.item_type) with
  | some it =>
      let ii1 :=
        if it.opened_by_default then
          let opened := { ii0 with opened_at := some now }
          match it.ttl with
          | some ttl => { opened with expires_at := some (now + ttl) }
          | none => opened
        else ii0
      let ii2 := { ii1 with added_at := some now }
      Except.ok ({ inv with item_instances := inv.item_instances ++ [ii2] }, free_id)
  | none => Except.error InventoryError.UnknownItemType

/-- `Inventory::trash`: set `removed_at = now` on the first instance whose
id matches; print-only no-op when the id is absent. -/
def trash (inv : Inventory) (instance_id : Nat) (now : Nat) : Inventory :=
  { inv with
    item_instances :=
      updateFirst (fun t => t.id == instance_id)
        (fun t => { t with removed_at := some now }) inv.item_instances }

/-- `Inventory::delete_item_type`: `retain` both collections. -/
def delete_item_type (inv : Inventory) (id : Nat) : Inventory :=
  { item_types := inv.item_types.filter (fun t => t.id != id),
    item_instances := inv.item_instances.filter (fun i => i.item_type != id) }

/-- `Inventory::delete_item_instance`: despite its name, it sets
`removed_at = now` on the first instance whose id matches and returns `Ok`;
`Err(UnknownItemInstance)` when no instance has that id. -/
def delete_item_instance (inv : Inventory) (id : Nat) (now : Nat) :
    Except InventoryError Inventory :=
  if inv.item_instances.any (fun inst => inst.id == id) then
    Except.ok
      { inv with
        item_instances :=
          updateFirst (fun inst => inst.id == id)
            (fun inst => { inst with removed_at := some now }) inv.item_instances }
  else
    Except.error InventoryError.UnknownItemInstance

/-- `Inventory::get_instances_for_type`: error when the type is unknown,
otherwise the active (not trashed) instances of the type in collection
order. -/
def get_instances_for_type (inv : Inventory) (id : Nat) :
    Except InventoryError (List ItemInstance) :=
  if inv.has_item_type id then
    Except.ok
      (inv.item_instances.filter (fun inst => inst.item_type == id && inst.removed_at.isNone))
  else
    Except.error InventoryError.UnknownItemType

/-- `Inventory::quantity_for_type`: fold of `quantity` over the active
instances of the type. -/
def quantity_for_type (inv : Inventory) (type_id : Nat) : Rat :=
  ((inv.item_instances.filter
      (fun ii => ii.item_type == type_id && ii.removed_at.isNone)).map
    (fun ii => ii.quantity)).foldl (fun accum e => accum + e) 0

end Inventory

/-- The filter `t.item_type == type_id && t.removed_at.is_none()` of
`Inventory::use_instance` (the candidates the mutable sub-list is built
from). -/
def activeOfType (type_id : Nat) (t : ItemInstance) : Bool :=
  t.item_type == type_id && t.removed_at.isNone

/-- An active candidate that is already opened (`use_instance` prefers
these: `find(|ii| ii.opened_at.is_some())` over the filtered list). -/
def openedActiveOfType (type_id : Nat) (t : ItemInstance) : Bool :=
  activeOfType type_id t && t.opened_at.isSome

/-- The predicate that identifies, in the untouched collection, the element
`use_instance` mutates: the first opened active candidate when one exists,
else the first active candidate (`target = find(opened); if none, first`). -/
def selectionPred (inv : Inventory) (type_id : Nat) : ItemInstance → Bool :=
  if inv.item_instances.any (openedActiveOfType type_id) then
    openedActiveOfType type_id
  else
    activeOfType type_id

/-- Lines 156–165 of `use_instance`: subtract the requested quantity from
the chosen instance. Returns the updated instance together with the local
variables `remaining` and `trash_id` (both `0` unless the subtraction went
negative with an explicit quantity; `None` means `quantity -= 1.0` with no
clamping). -/
def consumeUpdate (quantity : Option Rat) (ii : ItemInstance) : ItemInstance × Rat × Nat :=
  match quantity with
  | some e =>
      let q := ii.quantity - e
      if q < 0 then ({ ii with quantity := 0 }, q, ii.id)
      else ({ ii with quantity := q }, 0, 0)
  | none => ({ ii with quantity := ii.quantity - 1 }, 0, 0)

/-- Lines 166–182 of `use_instance`: if the chosen instance was not yet
opened, stamp `opened_at = now`; then look the type up (`expect` — `none`
models that panic) and, given a `ttl`, set `expires_at` to the candidate
`now + ttl` unless an earlier `expires_at` is already recorded. -/
def openUpdate (inv : Inventory) (type_id : Nat) (now : Nat) (ii : ItemInstance) :
    Option ItemInstance :=
  if ii.opened_at.isNone then
    let opened := { ii with opened_at := some now }
    match inv.item_types.find? (fun it => it.id == type_id) with
    | none => none
    | some it =>
        match it.ttl with
        | some ttl =>
            let candidate_exp := now + ttl
            let new_exp :=
              match opened.expires_at with
              | some old => if old < candidate_exp then old else candidate_exp
              | none => candidate_exp
            some { opened with expires_at := some new_exp }
        | none => some opened
  else
    some ii

/-- One non-recursive pass of `Inventory::use_instance` (lines 142–185):
choose the target, apply `consumeUpdate` then `openUpdate` to it in place,
and report `(state, remaining, trash_id)`. When no candidate exists only
the error message is printed (`remaining` stays `0`, nothing changes). -/
def useInstanceStep (inv : Inventory) (type_id : Nat) (quantity : Option Rat) (now : Nat) :
    Option (Inventory × Rat × Nat) :=
  match inv.item_instances.find? (selectionPred inv type_id) with
  | none => some (inv, 0, 0)
  | some ii =>
      let step := consumeUpdate quantity ii
      match openUpdate inv type_id now step.1 with
      | none => none
      | some ii2 =>
          some
            ({ inv with
                item_instances :=
                  updateFirst (selectionPred inv type_id) (fun _ => ii2) inv.item_instances },
              step.2.1, step.2.2)

/-- Lines 187–190 of `use_instance`: when more than `0.0005` is still owed,
trash the drained instance and re-invoke `use_instance` with the leftover.
The recursion is bounded by fuel; running out of fuel (`none`) models the
source's divergence, which is unreachable from states with distinct
instance ids. -/
def useInstanceAux : Nat → Inventory → Nat → Option Rat → Nat → Option Inventory
  | 0, _, _, _, _ => none
  | fuel + 1, inv, type_id, quantity, now =>
      match useInstanceStep inv type_id quantity now with
      | none => none
      | some (inv1, remaining, trash_id) =>
          if remaining < -(1 / 2000 : Rat) then
            useInstanceAux fuel (inv1.trash trash_id now) type_id (some (-remaining)) now
          else
            some inv1

/-- `Inventory::use_instance`: each recursive call trashes one previously
active instance, so `item_instances.length + 1` rounds of fuel always
suffice when ids are distinct. -/
def Inventory.use_instance (inv : Inventory) (type_id : Nat) (quantity : Option Rat)
    (now : Nat) : Option Inventory :=
  useInstanceAux (inv.item_instances.length + 1) inv type_id quantity now

/-! ## The CLI derived queries

The CLI crate (`src/cli/src/main.rs`) was written against a revision of the
manager crate that is not under `src/`: its code dereferences
`ItemType.minimum_quantity` as an `Option` and `ItemInstance.alive` as a
`bool`, neither of which exists in `src/manager/src/lib.rs`. The structures
below carry exactly the fields the two derived queries (`print_missing`,
`print_expired`) and the CLI `trash` read, with the shapes those reads
witness. -/

namespace Cli

/-- The item-type shape the CLI dereferences: `minimum_quantity` is
optional there (`if let Some(min) = ….minimum_quantity`). -/
structure ItemType where
  id : Nat
  minimum_quantity : Option Rat
deriving Repr, DecidableEq

/-- The item-instance shape the CLI dereferences: trashing is an `alive`
flag there (`item_instance.alive = false`). -/
structure ItemInstance where
  id : Nat
  item_type : Nat
  quantity : Rat
  expires_at : Option Nat
  alive : Bool
deriving Repr, DecidableEq

/-- The two collections, as in the manager crate. -/
structure Inventory where
  item_types : List ItemType
  item_instances : List ItemInstance
deriving Repr, DecidableEq

/-- The filter loop of `print_missing` (src/cli/src/main.rs:656–675) over
the instance list: an instance is kept when its type records `Some(min)`
and the instance's own `quantity < min`; a type that records no minimum
keeps nothing. The `expect` on the type lookup panics when an instance
references an absent type — modelled by `none`. -/
def missingFilter (types : List ItemType) : List ItemInstance → Option (List ItemInstance)
  | [] => some []
  | t :: rest =>
      match types.find? (fun it => it.id == t.item_type) with
      | none => none
      | some ty =>
          match ty.minimum_quantity with
          | some m =>
              match missingFilter types rest with
              | none => none
              | some v => some (if t.quantity < m then t :: v else v)
          | none =>
              match missingFilter types rest with
              | none => none
              | some v => some v

/-- `print_missing` of `src/cli/src/main.rs`: the list handed to
`print_item_instances` (note: instances, not types). -/
def print_missing (inv : Inventory) : Option (List ItemInstance) :=
  missingFilter inv.item_types inv.item_instances

/-- `print_expired` of `src/cli/src/main.rs` (lines 677–690): every
instance whose `expires_at` is set and strictly earlier than `now`
(`SystemTime::now() > expiry`), with no look at `alive` or `quantity`. -/
def print_expired (inv : Inventory) (now : Nat) : List ItemInstance :=
  inv.item_instances.filter (fun t =>
    match t.expires_at with
    | some expiry => decide (expiry < now)
    | none => false)

end Cli

/-! ## Helper lemmas -/

theorem length_updateFirst {α : Type} (p : α → Bool) (f : α → α) (l : List α) :
    (updateFirst p f l).length = l.length := by
  induction l with
  | nil => rfl
  | cons x rest ih =>
      simp only [updateFirst]
      by_cases h : p x
      · simp [h]
      · simp [h, ih]

theorem updateFirst_append_cons {α : Type} (p : α → Bool) (f : α → α)
    (l1 l2 : List α) (x : α) (h1 : ∀ y ∈ l1, p y = false) (hx : p x = true) :
    updateFirst p f (l1 ++ x :: l2) = l1 ++ f x :: l2 := by
  induction l1 with
  | nil => simp [updateFirst, hx]
  | cons a rest ih =>
      have ha : p a = false := h1 a (List.mem_cons_self a rest)
      simp only [List.cons_append, updateFirst, ha]
      simp only [Bool.false_eq_true, if_false]
      exact congrArg (a :: ·) (ih fun y hy => h1 y (List.mem_cons_of_mem a hy))

theorem find?_append_cons {α : Type} (p : α → Bool) (l1 l2 : List α) (x : α)
    (h1 : ∀ y ∈ l1, p y = false) (hx : p x = true) :
    (l1 ++ x :: l2).find? p = some x := by
  induction l1 with
  | nil => simp [List.find?_cons_of_pos, hx]
  | cons a rest ih =>
      have ha : p a = false := h1 a (List.mem_cons_self a rest)
      simp only [List.cons_append]
      rw [List.find?_cons_of_neg _ (by simp [ha]), ih fun y hy => h1 y (List.mem_cons_of_mem a hy)]

theorem mem_updateFirst {α : Type} {p : α → Bool} {f : α → α} {l : List α} {y : α}
    (hy : y ∈ updateFirst p f l) : y ∈ l ∨ ∃ x, x ∈ l ∧ p x = true ∧ y = f x := by
  induction l with
  | nil => simp [updateFirst] at hy
  | cons a rest ih =>
      simp only [updateFirst] at hy
      by_cases h : p a
      · simp only [h, if_true, List.mem_cons] at hy
        rcases hy with h1 | h1
        · exact Or.inr ⟨a, List.mem_cons_self a rest, h, h1⟩
        · exact Or.inl (List.mem_cons_of_mem a h1)
      · simp only [h, Bool.false_eq_true, if_false, List.mem_cons] at hy
        rcases hy with h1 | h1
        · exact Or.inl (by simp [h1])
        · rcases ih h1 with h2 | ⟨x, hx1, hx2, hx3⟩
          · exact Or.inl (List.mem_cons_of_mem a h2)
          · exact Or.inr ⟨x, List.mem_cons_of_mem a hx1, hx2, hx3⟩

theorem le_foldr_max (l : List Nat) (x : Nat) (hx : x ∈ l) : x ≤ l.foldr max 0 := by
  induction l with
  | nil => cases hx
  | cons a rest ih =>
      rcases List.mem_cons.mp hx with h | h
      · subst h; exact le_max_left _ _
      · exact Nat.le_trans (ih h) (le_max_right _ _)

theorem foldr_max_mem (l : List Nat) (h : l ≠ []) : l.foldr max 0 ∈ l := by
  induction l with
  | nil => exact absurd rfl h
  | cons a rest ih =>
      cases rest with
      | nil => simp
      | cons b t =>
          have hmem := ih (by simp)
          simp only [List.foldr_cons] at hmem ⊢
          rcases max_choice a (max b (List.foldr max 0 t)) with hc | hc
          · rw [hc]; exact List.mem_cons_self _ _
          · rw [hc]; exact List.mem_cons_of_mem a hmem

theorem foldr_max_append (l : List Nat) (a : Nat) :
    (l ++ [a]).foldr max 0 = max (l.foldr max 0) a := by
  induction l with
  | nil => simp [max_comm]
  | cons x rest ih => simp [ih, max_assoc]

theorem foldl_add_eq_sum (l : List Rat) (a : Rat) :
    l.foldl (fun accum e => accum + e) a = a + l.sum := by
  induction l generalizing a with
  | nil => simp
  | cons x rest ih => simp [ih, add_assoc]

/-! ## Concrete fixtures -/

/-- A minimal item type with id 1 and no ttl. -/
def tType : ItemType :=
  { id := 1, name := "T", minimum_quantity := 0, ttl := none, opened_by_default := false }

/-- A minimal active, unopened instance of type 1 with quantity 1. -/
def tInst : ItemInstance :=
  { id := 1, item_type := 1, quantity := 1, model := none, serial := none, extra := none,
    location := none, value := none, opened_at := none, expires_at := none,
    added_at := none, removed_at := none }

/-- One type, one instance: the store the C1/C10 scenarios start from. -/
def c1Before : Inventory := { item_types := [tType], item_instances := [tInst] }

/-- What the code leaves behind after `delete_item_instance(1)` at time 5:
the record is still in the collection, merely marked `removed_at = 5`. -/
def c1After : Inventory :=
  { item_types := [tType], item_instances := [{ tInst with removed_at := some 5 }] }

/-! ## C1 -/

/-- C1 counterexample: `DeleteInstance(1)` on a store holding exactly
instance 1 answers `Ok` yet leaves a residual record with that id in the
collection — not the hard removal (permanent, no residual record) the
claim states. -/
theorem delete_item_instance_leaves_residual_record :
    Inventory.delete_item_instance c1Before 1 5 = Except.ok c1After ∧
    c1After.item_instances.length = 1 ∧
    c1After.item_instances.map (fun i => i.id) = [1] := by
  refine ⟨?_, rfl, rfl⟩
  rfl

/-- C1 (amended): `DeleteInstance(id)` on a present id soft-deletes exactly
like `Trash`: it answers `Ok` and only sets `removed_at = now` on the first
record carrying that id, which stays in the collection; on an absent id it
answers `UnknownItemInstance` (the `NotFound` of the spec) and the
collection is untouched. -/
theorem delete_item_instance_soft_spec (inv : Inventory) (id now : Nat) :
    (∀ l1 x l2, inv.item_instances = l1 ++ x :: l2 → x.id = id →
        (∀ y ∈ l1, y.id ≠ id) →
        Inventory.delete_item_instance inv id now =
          Except.ok { inv with
            item_instances := l1 ++ { x with removed_at := some now } :: l2 }) ∧
    ((∀ y ∈ inv.item_instances, y.id ≠ id) →
        Inventory.delete_item_instance inv id now =
          Except.error InventoryError.UnknownItemInstance) := by
  constructor
  · intro l1 x l2 hsplit hx hl1
    have hany : inv.item_instances.any (fun inst => inst.id == id) = true := by
      rw [hsplit]
      exact List.any_eq_true.mpr ⟨x, by simp, by simp [hx]⟩
    have hupd : updateFirst (fun inst => inst.id == id)
        (fun inst => { inst with removed_at := some now }) inv.item_instances =
        l1 ++ { x with removed_at := some now } :: l2 := by
      rw [hsplit]
      exact updateFirst_append_cons _ _ _ _ _
        (fun y hy => by simp [hl1 y hy]) (by simp [hx])
    simp [Inventory.delete_item_instance, hany, hupd]
  · intro hall
    have hany : inv.item_instances.any (fun inst => inst.id == id) = false := by
      refine List.any_eq_false.mpr ?_
      intro x hx
      simp [hall x hx]
    simp [Inventory.delete_item_instance, hany]

/-- C1 witness: the amended statement at a concrete store. -/
theorem delete_item_instance_soft_spec_witness :
    Inventory.delete_item_instance c1Before 1 5 =
      Except.ok { c1Before with
        item_instances := [] ++ { tInst with removed_at := some 5 } :: [] } :=
  (delete_item_instance_soft_spec c1Before 1 5).1 [] tInst [] rfl rfl (by simp)

/-! ## C10 -/

/-- C10: for a present id, `delete_item_instance` and `trash` build exactly
the same store — both only stamp `removed_at = now` on the first matching
record and remove nothing from the collection; they differ only in the
reported value (`Ok` versus silence). -/
theorem delete_item_instance_eq_trash (inv : Inventory) (id now : Nat)
    (h : ∃ x ∈ inv.item_instances, x.id = id) :
    Inventory.delete_item_instance inv id now = Except.ok (inv.trash id now) ∧
    (inv.trash id now).item_instances.length = inv.item_instances.length := by
  obtain ⟨x, hx, hid⟩ := h
  have hany : inv.item_instances.any (fun inst => inst.id == id) = true :=
    List.any_eq_true.mpr ⟨x, hx, by simp [hid]⟩
  constructor
  · simp [Inventory.delete_item_instance, hany, Inventory.trash]
  · exact length_updateFirst _ _ _

/-- C10 witness: the equivalence at a concrete store. -/
theorem delete_item_instance_eq_trash_witness :
    Inventory.delete_item_instance c1Before 1 7 = Except.ok (c1Before.trash 1 7) ∧
    (c1Before.trash 1 7).item_instances.length = c1Before.item_instances.length :=
  delete_item_instance_eq_trash c1Before 1 7 ⟨tInst, by simp [c1Before], rfl⟩

/-! ## C9 -/

/-- A quantity-2 instance and its one-type store for the C9 witness. -/
def c9Inst : ItemInstance := { tInst with quantity := 2 }

/-- Store holding only `c9Inst`. -/
def c9Inv : Inventory := { item_types := [tType], item_instances := [c9Inst] }

/-- C9: `Trash(id)` on a present id sets only `removed_at` of the first
record with that id: the types and every other instance are untouched and
the record keeps all its other fields; afterwards that record never shows
up in a `get_instances_for_type` answer, its quantity leaves the
`quantity_for_type` sum, yet it is still in the raw collection. -/
theorem trash_frame (inv : Inventory) (id now : Nat)
    (l1 l2 : List ItemInstance) (x : ItemInstance)
    (hsplit : inv.item_instances = l1 ++ x :: l2)
    (hx : x.id = id) (hl1 : ∀ y ∈ l1, y.id ≠ id) :
    (inv.trash id now).item_types = inv.item_types ∧
    (inv.trash id now).item_instances = l1 ++ { x with removed_at := some now } :: l2 ∧
    (inv.trash id now).item_instances.length = inv.item_instances.length ∧
    (∀ tid l, Inventory.get_instances_for_type (inv.trash id now) tid = Except.ok l →
        { x with removed_at := some now } ∉ l) ∧
    (x.removed_at = none →
        Inventory.quantity_for_type (inv.trash id now) x.item_type =
          Inventory.quantity_for_type inv x.item_type - x.quantity) ∧
    { x with removed_at := some now } ∈ (inv.trash id now).item_instances := by
  have hupd : (inv.trash id now).item_instances =
      l1 ++ { x with removed_at := some now } :: l2 := by
    show updateFirst _ _ inv.item_instances = _
    rw [hsplit]
    exact updateFirst_append_cons _ _ _ _ _
      (fun y hy => by simp [hl1 y hy]) (by simp [hx])
  refine ⟨rfl, hupd, ?_, ?_, ?_, ?_⟩
  · rw [hupd, hsplit]; simp
  · intro tid l hok hmem
    simp only [Inventory.get_instances_for_type] at hok
    split at hok
    · cases hok
      have := (List.mem_filter.mp hmem).2
      simp at this
    · cases hok
  · intro hrem
    have h1 : Inventory.quantity_for_type (inv.trash id now) x.item_type =
        (((l1 ++ { x with removed_at := some now } :: l2).filter
            (fun ii => ii.item_type == x.item_type && ii.removed_at.isNone)).map
          (fun ii => ii.quantity)).sum := by
      rw [Inventory.quantity_for_type, hupd, foldl_add_eq_sum, zero_add]
    have h2 : Inventory.quantity_for_type inv x.item_type =
        (((l1 ++ x :: l2).filter
            (fun ii => ii.item_type == x.item_type && ii.removed_at.isNone)).map
          (fun ii => ii.quantity)).sum := by
      rw [Inventory.quantity_for_type, hsplit, foldl_add_eq_sum, zero_add]
    rw [h1, h2]
    simp [List.filter_append, hrem]
    ring
  · rw [hupd]; simp

/-- C9 witness: the frame statement at a concrete store. -/
theorem trash_frame_witness :
    Inventory.quantity_for_type (c9Inv.trash 1 5) 1 =
      Inventory.quantity_for_type c9Inv 1 - c9Inst.quantity :=
  ((trash_frame c9Inv 1 5 [] [] c9Inst rfl rfl (by simp)).2.2.2.2.1 rfl)

/-! ## C2: call sequences and id allocation -/

/-- One front-end call into the store (the four calls the claim ranges
over). -/
inductive Op where
  | createType : ItemType → Op
  | createInstance : ItemInstance → Op
  | deleteType : Nat → Op
  | deleteInstance : Nat → Op

/-- Whether the call is one of the two creations. -/
def Op.isCreate : Op → Bool
  | createType _ => true
  | createInstance _ => true
  | _ => false

/-- Apply one call: the new store, the issued type id (for `CreateType`)
and the issued instance id (for a successful `CreateInstance`). A failing
call leaves the store as it was and issues nothing. -/
def applyOp (inv : Inventory) (now : Nat) : Op → Inventory × Option Nat × Option Nat
  | Op.createType it =>
      let r := inv.add_item_type it
      (r.1, some r.2, none)
  | Op.createInstance ii =>
      match inv.add_item_instance ii now with
      | Except.ok r => (r.1, none, some r.2)
      | Except.error _ => (inv, none, none)
  | Op.deleteType id => (inv.delete_item_type id, none, none)
  | Op.deleteInstance id =>
      match inv.delete_item_instance id now with
      | Except.ok inv1 => (inv1, none, none)
      | Except.error _ => (inv, none, none)

/-- Run a call sequence, collecting the issued type ids and instance ids in
order. -/
def runOps (inv : Inventory) (now : Nat) : List Op → Inventory × List Nat × List Nat
  | [] => (inv, [], [])
  | op :: rest =>
      let r := applyOp inv now op
      let rr := runOps r.1 now rest
      (rr.1, r.2.1.toList ++ rr.2.1, r.2.2.toList ++ rr.2.2)

theorem foldr_max_snoc_succ (l : List Nat) :
    (l ++ [l.foldr max 0 + 1]).foldr max 0 = l.foldr max 0 + 1 := by
  rw [foldr_max_append]
  exact max_eq_right (Nat.le_succ _)

theorem free_type_id_add_item_type (inv : Inventory) (it : ItemType) :
    (inv.add_item_type it).1.free_type_id = inv.free_type_id + 1 := by
  simp only [Inventory.add_item_type, Inventory.free_type_id, List.map_append, List.map_cons,
    List.map_nil]
  exact congrArg (· + 1) (foldr_max_snoc_succ _)

theorem add_item_instance_ok_shape (inv : Inventory) (ii : ItemInstance) (now : Nat)
    (r : Inventory × Nat) (h : inv.add_item_instance ii now = Except.ok r) :
    r.2 = inv.free_instance_id ∧
    r.1.item_types = inv.item_types ∧
    r.1.free_instance_id = inv.free_instance_id + 1 := by
  simp only [Inventory.add_item_instance] at h
  cases hfind : inv.item_types.find? (fun it => it.id == ii.item_type) with
  | none =>
      rw [hfind] at h
      cases h
  | some ty =>
      rw [hfind] at h
      cases h
      refine ⟨rfl, rfl, ?_⟩
      by_cases hod : ty.opened_by_default
      · cases httl : ty.ttl with
        | none =>
            simp only [Inventory.free_instance_id, hod, httl, if_true, List.map_append,
              List.map_cons, List.map_nil]
            exact congrArg (· + 1) (foldr_max_snoc_succ _)
        | some d =>
            simp only [Inventory.free_instance_id, hod, httl, if_true, List.map_append,
              List.map_cons, List.map_nil]
            exact congrArg (· + 1) (foldr_max_snoc_succ _)
      · simp only [Inventory.free_instance_id, hod, if_false, List.map_append,
          List.map_cons, List.map_nil]
        exact congrArg (· + 1) (foldr_max_snoc_succ _)

theorem runOps_create_increasing (ops : List Op) :
    ∀ inv now, (∀ op ∈ ops, op.isCreate = true) →
      List.Pairwise (fun a b => a < b) (runOps inv now ops).2.1 ∧
      List.Pairwise (fun a b => a < b) (runOps inv now ops).2.2 ∧
      (∀ z ∈ (runOps inv now ops).2.1, inv.free_type_id ≤ z) ∧
      (∀ z ∈ (runOps inv now ops).2.2, inv.free_instance_id ≤ z) := by
  induction ops with
  | nil =>
      intro inv now _
      simp [runOps]
  | cons op rest ih =>
      intro inv now h
      have hop := h op (List.mem_cons_self _ _)
      have hrest := ih ((applyOp inv now op).1) now
        (fun o hm => h o (List.mem_cons_of_mem _ hm))
      cases op with
      | createType it =>
          have hft : (applyOp inv now (Op.createType it)).1.free_type_id =
              inv.free_type_id + 1 := free_type_id_add_item_type inv it
          have hfi : (applyOp inv now (Op.createType it)).1.free_instance_id =
              inv.free_instance_id := rfl
          obtain ⟨p1, p2, b1, b2⟩ := hrest
          refine ⟨?_, ?_, ?_, ?_⟩
          · simp only [runOps, applyOp, Option.toList_some, Option.toList_none,
              List.nil_append, List.cons_append, List.pairwise_cons]
            constructor
            · intro z hz
              have := b1 z hz
              rw [hft] at this
              exact Nat.lt_of_lt_of_le (Nat.lt_succ_self _) this
            · exact p1
          · simpa only [runOps, applyOp, Option.toList_none, List.nil_append] using p2
          · simp only [runOps, applyOp, Option.toList_some, Option.toList_none,
              List.nil_append, List.cons_append, List.mem_cons]
            intro z hz
            rcases hz with hz | hz
            · subst hz; exact Nat.le_refl _
            · have := b1 z hz
              rw [hft] at this
              exact Nat.le_trans (Nat.le_succ _) this
          · simp only [runOps, applyOp, Option.toList_none, List.nil_append]
            intro z hz
            have := b2 z hz
            rw [hfi] at this
            exact this
      | createInstance ii =>
          cases hadd : inv.add_item_instance ii now with
          | ok r =>
              obtain ⟨hid, hty, hfi⟩ := add_item_instance_ok_shape inv ii now r hadd
              have happ : applyOp inv now (Op.createInstance ii) = (r.1, none, some r.2) := by
                simp [applyOp, hadd]
              rw [happ] at hrest
              obtain ⟨p1, p2, b1, b2⟩ := hrest
              have hft : r.1.free_type_id = inv.free_type_id := by
                simp only [Inventory.free_type_id, hty]
              refine ⟨?_, ?_, ?_, ?_⟩
              · simp only [runOps, applyOp, hadd, Option.toList_none, List.nil_append]
                exact p1
              · simp only [runOps, applyOp, hadd, Option.toList_some, Option.toList_none,
                  List.nil_append, List.cons_append, List.pairwise_cons]
                constructor
                · intro z hz
                  have := b2 z hz
                  rw [hfi] at this
                  rw [hid]
                  exact Nat.lt_of_lt_of_le (Nat.lt_succ_self _) this
                · exact p2
              · simp only [runOps, applyOp, hadd, Option.toList_none, List.nil_append]
                intro z hz
                have := b1 z hz
                rw [hft] at this
                exact this
              · simp only [runOps, applyOp, hadd, Option.toList_some, Option.toList_none,
                  List.nil_append, List.cons_append, List.mem_cons]
                intro z hz
                rcases hz with hz | hz
                · subst hz; rw [hid]
                · have := b2 z hz
                  rw [hfi] at this
                  exact Nat.le_trans (Nat.le_succ _) this
          | error e =>
              have happ : applyOp inv now (Op.createInstance ii) = (inv, none, none) := by
                simp [applyOp, hadd]
              rw [happ] at hrest
              obtain ⟨p1, p2, b1, b2⟩ := hrest
              refine ⟨?_, ?_, ?_, ?_⟩
              · simp only [runOps, applyOp, hadd, Option.toList_none, List.nil_append]
                exact p1
              · simp only [runOps, applyOp, hadd, Option.toList_none, List.nil_append]
                exact p2
              · simp only [runOps, applyOp, hadd, Option.toList_none, List.nil_append]
                exact b1
              · simp only [runOps, applyOp, hadd, Option.toList_none, List.nil_append]
                exact b2
      | deleteType id => simp [Op.isCreate] at hop
      | deleteInstance id => simp [Op.isCreate] at hop

/-- Empty store with no types and no instances. -/
def emptyInv : Inventory := { item_types := [], item_instances := [] }

/-- C2 counterexample: from the empty store, the sequence CreateType,
CreateType, DeleteType(2), CreateType issues the type ids 1, 2, 2: after a
deletion the id 2 is issued a second time, so the issued ids are neither
strictly increasing nor unique over sequences containing deletions. -/
theorem create_ids_reused_after_delete :
    (runOps emptyInv 0
        [Op.createType tType, Op.createType tType, Op.deleteType 2,
          Op.createType tType]).2.1 = [1, 2, 2] ∧
    ¬ List.Pairwise (fun a b : Nat => a < b) [1, 2, 2] := by
  refine ⟨rfl, ?_⟩
  decide

/-- C2 (amended): each creation issues `max(existing ids) + 1` for its own
collection (the maximum is attained by an existing record, and the empty
collection starts at 1, every stored id being strictly below the next free
one); over any call sequence WITHOUT deletions the issued type ids and the
issued instance ids are each strictly increasing, hence never issued
twice. After a deletion of the record holding the maximal id, that id can
be issued again (see the counterexample), so the claim's "even after
deletions" part fails. -/
theorem create_ids_fresh_and_monotone (ops : List Op) (inv : Inventory) (now : Nat)
    (hc : ∀ op ∈ ops, op.isCreate = true) :
    List.Pairwise (fun a b => a < b) (runOps inv now ops).2.1 ∧
    List.Pairwise (fun a b => a < b) (runOps inv now ops).2.2 ∧
    (∀ t ∈ inv.item_types, t.id < inv.free_type_id) ∧
    (∀ i ∈ inv.item_instances, i.id < inv.free_instance_id) ∧
    (inv.item_types = [] → inv.free_type_id = 1) ∧
    (inv.item_instances = [] → inv.free_instance_id = 1) ∧
    (inv.item_types ≠ [] → ∃ t ∈ inv.item_types, inv.free_type_id = t.id + 1) ∧
    (inv.item_instances ≠ [] → ∃ i ∈ inv.item_instances, inv.free_instance_id = i.id + 1) := by
  obtain ⟨p1, p2, _, _⟩ := runOps_create_increasing ops inv now hc
  refine ⟨p1, p2, ?_, ?_, ?_, ?_, ?_, ?_⟩
  · intro t ht
    have : t.id ≤ (inv.item_types.map (fun it => it.id)).foldr max 0 :=
      le_foldr_max _ _ (List.mem_map_of_mem _ ht)
    exact Nat.lt_succ_of_le this
  · intro i hi
    have : i.id ≤ (inv.item_instances.map (fun ii => ii.id)).foldr max 0 :=
      le_foldr_max _ _ (List.mem_map_of_mem _ hi)
    exact Nat.lt_succ_of_le this
  · intro he
    simp [Inventory.free_type_id, he]
  · intro he
    simp [Inventory.free_instance_id, he]
  · intro hne
    have hm : (inv.item_types.map (fun it => it.id)).foldr max 0 ∈
        inv.item_types.map (fun it => it.id) :=
      foldr_max_mem _ (by simpa using hne)
    obtain ⟨t, ht, hid⟩ := List.mem_map.mp hm
    exact ⟨t, ht, by rw [Inventory.free_type_id, hid]⟩
  · intro hne
    have hm : (inv.item_instances.map (fun ii => ii.id)).foldr max 0 ∈
        inv.item_instances.map (fun ii => ii.id) :=
      foldr_max_mem _ (by simpa using hne)
    obtain ⟨i, hi, hid⟩ := List.mem_map.mp hm
    exact ⟨i, hi, by rw [Inventory.free_instance_id, hid]⟩

/-- C2 witness: the amended statement at a concrete deletion-free sequence
from a concrete one-type, one-instance store. -/
theorem create_ids_fresh_and_monotone_witness :
    List.Pairwise (fun a b => a < b)
      (runOps c1Before 0 [Op.createType tType, Op.createInstance tInst]).2.1 ∧
    List.Pairwise (fun a b => a < b)
      (runOps c1Before 0 [Op.createType tType, Op.createInstance tInst]).2.2 ∧
    (∀ t ∈ c1Before.item_types, t.id < c1Before.free_type_id) ∧
    (∀ i ∈ c1Before.item_instances, i.id < c1Before.free_instance_id) ∧
    (c1Before.item_types = [] → c1Before.free_type_id = 1) ∧
    (c1Before.item_instances = [] → c1Before.free_instance_id = 1) ∧
    (c1Before.item_types ≠ [] →
      ∃ t ∈ c1Before.item_types, c1Before.free_type_id = t.id + 1) ∧
    (c1Before.item_instances ≠ [] →
      ∃ i ∈ c1Before.item_instances, c1Before.free_instance_id = i.id + 1) :=
  create_ids_fresh_and_monotone [Op.createType tType, Op.createInstance tInst]
    c1Before 0 (by
      intro op hm
      simp only [List.mem_cons, List.not_mem_nil, or_false] at hm
      rcases hm with rfl | rfl <;> rfl)

/-! ## C3: clamping of quantities -/

theorem consumeUpdate_some_nonneg (e : Rat) (ii : ItemInstance) :
    0 ≤ (consumeUpdate (some e) ii).1.quantity := by
  by_cases h : ii.quantity - e < 0
  · simp [consumeUpdate, h]
  · simp only [consumeUpdate, h, if_false]
    exact le_of_not_lt h

theorem consumeUpdate_opened_at (q : Option Rat) (ii : ItemInstance) :
    (consumeUpdate q ii).1.opened_at = ii.opened_at := by
  cases q with
  | none => rfl
  | some e =>
      by_cases h : ii.quantity - e < 0
      · simp [consumeUpdate, h]
      · simp [consumeUpdate, h]

theorem consumeUpdate_expires_at (q : Option Rat) (ii : ItemInstance) :
    (consumeUpdate q ii).1.expires_at = ii.expires_at := by
  cases q with
  | none => rfl
  | some e =>
      by_cases h : ii.quantity - e < 0
      · simp [consumeUpdate, h]
      · simp [consumeUpdate, h]

theorem openUpdate_quantity (inv : Inventory) (t now : Nat) (ii ii2 : ItemInstance)
    (h : openUpdate inv t now ii = some ii2) : ii2.quantity = ii.quantity := by
  simp only [openUpdate] at h
  cases hoa : ii.opened_at with
  | some v =>
      simp only [hoa, Option.isNone_some, Bool.false_eq_true, if_false] at h
      cases h
      rfl
  | none =>
      simp only [hoa, Option.isNone_none, if_true] at h
      cases hfind : inv.item_types.find? (fun it => it.id == t) with
      | none =>
          simp only [hfind] at h
          cases h
      | some ty =>
          simp only [hfind] at h
          cases httl : ty.ttl with
          | some d =>
              simp only [httl] at h
              cases h
              rfl
          | none =>
              simp only [httl] at h
              cases h
              rfl

theorem useInstanceStep_nonneg (inv : Inventory) (t : Nat) (e : Rat) (now : Nat)
    (out : Inventory × Rat × Nat)
    (h0 : ∀ i ∈ inv.item_instances, 0 ≤ i.quantity)
    (h : useInstanceStep inv t (some e) now = some out) :
    ∀ i ∈ out.1.item_instances, 0 ≤ i.quantity := by
  simp only [useInstanceStep] at h
  cases hfind : inv.item_instances.find? (selectionPred inv t) with
  | none =>
      simp only [hfind] at h
      cases h
      exact h0
  | some ii =>
      simp only [hfind] at h
      cases hopen : openUpdate inv t now (consumeUpdate (some e) ii).1 with
      | none =>
          simp only [hopen] at h
          cases h
      | some ii2 =>
          simp only [hopen] at h
          cases h
          intro i hi
          rcases mem_updateFirst hi with hmem | ⟨x, _, _, hfx⟩
          · exact h0 i hmem
          · rw [hfx]
            have hq : ii2.quantity = (consumeUpdate (some e) ii).1.quantity :=
              openUpdate_quantity _ _ _ _ _ hopen
            show 0 ≤ ii2.quantity
            rw [hq]
            exact consumeUpdate_some_nonneg e ii

theorem trash_preserves_nonneg (inv : Inventory) (id now : Nat)
    (h0 : ∀ i ∈ inv.item_instances, 0 ≤ i.quantity) :
    ∀ i ∈ (inv.trash id now).item_instances, 0 ≤ i.quantity := by
  intro i hi
  rcases mem_updateFirst hi with hmem | ⟨x, hx, _, hfx⟩
  · exact h0 i hmem
  · rw [hfx]
    exact h0 x hx

theorem useInstanceAux_nonneg (fuel : Nat) :
    ∀ inv t e now inv', (∀ i ∈ inv.item_instances, 0 ≤ i.quantity) →
      useInstanceAux fuel inv t (some e) now = some inv' →
      ∀ i ∈ inv'.item_instances, 0 ≤ i.quantity := by
  induction fuel with
  | zero =>
      intro inv t e now inv' h0 h
      cases h
  | succ n ih =>
      intro inv t e now inv' h0 h
      simp only [useInstanceAux] at h
      cases hstep : useInstanceStep inv t (some e) now with
      | none =>
          simp only [hstep] at h
          cases h
      | some out =>
          obtain ⟨inv1, rem, tid⟩ := out
          simp only [hstep] at h
          have hout := useInstanceStep_nonneg inv t e now (inv1, rem, tid) h0 hstep
          by_cases hrem : rem < -(1 / 2000 : Rat)
          · rw [if_pos hrem] at h
            exact ih _ t _ now inv' (trash_preserves_nonneg _ _ _ hout) h
          · rw [if_neg hrem] at h
            cases h
            exact hout

/-- Instance with quantity 1/2 for the C3 counterexample. -/
def c3Inst : ItemInstance := { tInst with quantity := 1/2 }

/-- Store holding only `c3Inst`. -/
def c3Inv : Inventory := { item_types := [tType], item_instances := [c3Inst] }

/-- C3 counterexample: with no quantity supplied — the claim's "default
amount 1.0" case — `use_instance` runs `quantity -= 1.0` with no clamp: the
only instance of the type ends at quantity −1/2, strictly below 0. -/
theorem use_instance_default_goes_negative :
    c3Inv.use_instance 1 none 3 =
      some { item_types := [tType],
             item_instances := [{ c3Inst with quantity := -(1/2), opened_at := some 3 }] } ∧
    (-(1/2) : Rat) < 0 := by
  constructor
  · norm_num [Inventory.use_instance, useInstanceAux, useInstanceStep, selectionPred,
      openedActiveOfType, activeOfType, consumeUpdate, openUpdate, Inventory.trash,
      updateFirst, List.find?, c3Inv, c3Inst, tInst, tType]
  · norm_num

/-- C3 (amended): when an explicit quantity is supplied, `use_instance`
keeps every instance's quantity ≥ 0 (a subtraction that would go negative
is clamped to 0, and the spill-over recursion preserves this); with no
quantity supplied, 1.0 is subtracted with no clamp and the result may go
negative (see the counterexample). -/
theorem use_instance_explicit_nonneg (inv : Inventory) (t : Nat) (e : Rat)
    (now : Nat) (inv' : Inventory)
    (h0 : ∀ i ∈ inv.item_instances, 0 ≤ i.quantity)
    (h : inv.use_instance t (some e) now = some inv') :
    ∀ i ∈ inv'.item_instances, 0 ≤ i.quantity :=
  useInstanceAux_nonneg (inv.item_instances.length + 1) inv t e now inv' h0 h

/-- C3 witness: the amended statement at the concrete spill-over store,
instantiated at the instance the spill-over landed on. -/
theorem use_instance_explicit_nonneg_witness :
    (0 : Rat) ≤ ({ tInst with id := 2, quantity := 1/2, opened_at := some 7 } : ItemInstance).quantity :=
  use_instance_explicit_nonneg
    { item_types := [tType],
      item_instances := [tInst, { tInst with id := 2, quantity := 2 }] } 1 (5/2) 7
    { item_types := [tType],
      item_instances :=
        [{ tInst with quantity := 0, opened_at := some 7, removed_at := some 7 },
         { tInst with id := 2, quantity := 1/2, opened_at := some 7 }] }
    (by
      intro i hi
      simp only [List.mem_cons, List.not_mem_nil, or_false] at hi
      rcases hi with rfl | rfl <;> norm_num [tInst])
    (by
      norm_num [Inventory.use_instance, useInstanceAux, useInstanceStep, selectionPred,
        openedActiveOfType, activeOfType, consumeUpdate, openUpdate, Inventory.trash,
        updateFirst, List.find?, tInst, tType])
    { tInst with id := 2, quantity := 1/2, opened_at := some 7 }
    (by simp)

/-! ## C4: spill-over consumption and candidate selection -/

/-- First spill-over instance: quantity 1, unopened, active. -/
def c4I1 : ItemInstance := tInst

/-- Second spill-over instance: quantity 2, unopened, active. -/
def c4I2 : ItemInstance := { tInst with id := 2, quantity := 2 }

/-- The claim's spill-over store: type 1 with the two instances above. -/
def c4Inv : Inventory := { item_types := [tType], item_instances := [c4I1, c4I2] }

/-- Unopened quantity-5 instance, listed first. -/
def c4J1 : ItemInstance := { tInst with quantity := 5 }

/-- Already-opened quantity-5 instance, listed second. -/
def c4J2 : ItemInstance := { tInst with id := 2, quantity := 5, opened_at := some 1 }

/-- Store where the opened candidate is not the first in collection
order. -/
def c4InvB : Inventory := { item_types := [tType], item_instances := [c4J1, c4J2] }

/-- C4: (1) on the claim's store — two active unopened instances of
quantities 1 and 2 — `UseInstance(1, 2.5)` drains the first to 0 and
trashes it, and leaves the second at quantity 1/2 and opened; (2) when an
active instance is already opened, consumption hits it even if an earlier
unopened instance exists; (3) in general the consumed candidate is the
first opened active instance of the type when one exists, else the first
active one in collection order. -/
theorem use_instance_spillover_and_selection :
    (c4Inv.use_instance 1 (some (5/2)) 7 =
      some { item_types := [tType],
             item_instances :=
               [{ c4I1 with quantity := 0, opened_at := some 7, removed_at := some 7 },
                { c4I2 with quantity := 1/2, opened_at := some 7 }] }) ∧
    (c4InvB.use_instance 1 (some 1) 9 =
      some { item_types := [tType],
             item_instances := [c4J1, { c4J2 with quantity := 4 }] }) ∧
    (∀ (inv : Inventory) (t : Nat), inv.item_instances.find? (selectionPred inv t) =
        match inv.item_instances.find? (openedActiveOfType t) with
        | some x => some x
        | none => inv.item_instances.find? (activeOfType t)) := by
  refine ⟨?_, ?_, ?_⟩
  · norm_num [Inventory.use_instance, useInstanceAux, useInstanceStep, selectionPred,
      openedActiveOfType, activeOfType, consumeUpdate, openUpdate, Inventory.trash,
      updateFirst, List.find?, c4Inv, c4I1, c4I2, tInst, tType]
  · norm_num [Inventory.use_instance, useInstanceAux, useInstanceStep, selectionPred,
      openedActiveOfType, activeOfType, consumeUpdate, openUpdate, Inventory.trash,
      updateFirst, List.find?, c4InvB, c4J1, c4J2, tInst, tType]
  · intro inv t
    by_cases h : inv.item_instances.any (openedActiveOfType t)
    · cases hf : inv.item_instances.find? (openedActiveOfType t) with
      | some y => simp only [selectionPred, h, if_true, hf]
      | none =>
          obtain ⟨x, hx, hpx⟩ := List.any_eq_true.mp h
          exact absurd hpx (by simpa using List.find?_eq_none.mp hf x hx)
    · have hf : inv.item_instances.find? (openedActiveOfType t) = none := by
        refine List.find?_eq_none.mpr ?_
        intro x hx
        have := List.any_eq_false.mp (Bool.not_eq_true _ |>.mp h) x hx
        simp [this]
      simp only [selectionPred, h, Bool.false_eq_true, if_false, hf]

/-! ## C5: instance creation against a missing type -/

/-- C5: creating an instance whose `item_type` matches no stored type
answers `UnknownItemType`, and at the call-sequence level the store is
handed on exactly as it was — no instance is created. -/
theorem add_item_instance_unknown_type (inv : Inventory) (ii : ItemInstance) (now : Nat)
    (h : ∀ ty ∈ inv.item_types, ty.id ≠ ii.item_type) :
    inv.add_item_instance ii now = Except.error InventoryError.UnknownItemType ∧
    applyOp inv now (Op.createInstance ii) = (inv, none, none) := by
  have hfind : inv.item_types.find? (fun it => it.id == ii.item_type) = none :=
    List.find?_eq_none.mpr (fun ty hty => by simp [h ty hty])
  have he : inv.add_item_instance ii now = Except.error InventoryError.UnknownItemType := by
    simp only [Inventory.add_item_instance, hfind]
  exact ⟨he, by simp [applyOp, he]⟩

/-- C5 witness: creation against the empty type registry. -/
theorem add_item_instance_unknown_type_witness :
    emptyInv.add_item_instance tInst 0 = Except.error InventoryError.UnknownItemType ∧
    applyOp emptyInv 0 (Op.createInstance tInst) = (emptyInv, none, none) :=
  add_item_instance_unknown_type emptyInv tInst 0 (by intro ty hty; cases hty)

/-! ## C6: opening stamps and the expiry tie-break -/

/-- C6: when the chosen candidate is not yet opened and its type carries a
ttl, the consuming pass stamps `opened_at = now` and computes `expires_at`
as `now + ttl` when nothing was on record, and as the minimum of the
recorded deadline and `now + ttl` otherwise — an already-earlier deadline
is kept, and the stored deadline never moves later. -/
theorem use_instance_opening_expiry (inv : Inventory) (t : Nat) (q : Option Rat)
    (now d : Nat) (ty : ItemType) (l1 l2 : List ItemInstance) (x : ItemInstance)
    (hsplit : inv.item_instances = l1 ++ x :: l2)
    (hx : selectionPred inv t x = true)
    (hl1 : ∀ y ∈ l1, selectionPred inv t y = false)
    (hopen : x.opened_at = none)
    (hty : inv.item_types.find? (fun it => it.id == t) = some ty)
    (httl : ty.ttl = some d) :
    ∃ x', useInstanceStep inv t q now =
        some ({ inv with item_instances := l1 ++ x' :: l2 },
          (consumeUpdate q x).2.1, (consumeUpdate q x).2.2) ∧
      x'.opened_at = some now ∧
      x'.quantity = (consumeUpdate q x).1.quantity ∧
      (x.expires_at = none → x'.expires_at = some (now + d)) ∧
      (∀ old, x.expires_at = some old → x'.expires_at = some (min old (now + d))) ∧
      (∀ old, x.expires_at = some old → ∃ e2, x'.expires_at = some e2 ∧ e2 ≤ old) := by
  have hfind : inv.item_instances.find? (selectionPred inv t) = some x := by
    rw [hsplit]
    exact find?_append_cons _ _ _ _ hl1 hx
  have hupd : ∀ z : ItemInstance,
      updateFirst (selectionPred inv t) (fun _ => z) inv.item_instances = l1 ++ z :: l2 := by
    intro z
    rw [hsplit]
    exact updateFirst_append_cons _ _ _ _ _ hl1 hx
  have ho1 : (consumeUpdate q x).1.opened_at = none := by
    rw [consumeUpdate_opened_at, hopen]
  have he1 : (consumeUpdate q x).1.expires_at = x.expires_at :=
    consumeUpdate_expires_at q x
  cases hexp : x.expires_at with
  | none =>
      refine ⟨{ (consumeUpdate q x).1 with opened_at := some now, expires_at := some (now + d) }, ?_, rfl, rfl, fun _ => rfl, ?_, ?_⟩
      · simp only [useInstanceStep, hfind, openUpdate, ho1, Option.isNone_none, if_true,
          hty, httl, he1, hexp, hupd]
      · intro old hold
        cases hold
      · intro old hold
        cases hold
  | some old0 =>
      by_cases hlt : old0 < now + d
      · refine ⟨{ (consumeUpdate q x).1 with opened_at := some now, expires_at := some old0 }, ?_, rfl, rfl, ?_, ?_, ?_⟩
        · simp only [useInstanceStep, hfind, openUpdate, ho1, Option.isNone_none, if_true,
            hty, httl, he1, hexp, hupd]
          rw [if_pos hlt]
        · intro hnone
          cases hnone
        · intro old hold
          cases hold
          show (some old0 : Option Nat) = some (min old0 (now + d))
          rw [min_eq_left (le_of_lt hlt)]
        · intro old hold
          cases hold
          exact ⟨old0, rfl, le_refl old0⟩
      · refine ⟨{ (consumeUpdate q x).1 with opened_at := some now, expires_at := some (now + d) }, ?_, rfl, rfl, ?_, ?_, ?_⟩
        · simp only [useInstanceStep, hfind, openUpdate, ho1, Option.isNone_none, if_true,
            hty, httl, he1, hexp, hupd]
          rw [if_neg hlt]
        · intro hnone
          cases hnone
        · intro old hold
          cases hold
          show (some (now + d) : Option Nat) = some (min old0 (now + d))
          rw [min_eq_right (le_of_not_lt hlt)]
        · intro old hold
          cases hold
          exact ⟨now + d, rfl, le_of_not_lt hlt⟩

/-- Item type 1 with a ttl of 10. -/
def c6Type : ItemType := { tType with ttl := some 10 }

/-- Store pairing `c6Type` with the unopened `tInst`. -/
def c6Inv : Inventory := { item_types := [c6Type], item_instances := [tInst] }

/-- C6 witness: opening the fresh instance at time 4 under a ttl of 10. -/
theorem use_instance_opening_expiry_witness :
    ∃ x', useInstanceStep c6Inv 1 (some 1) 4 =
        some ({ c6Inv with item_instances := [] ++ x' :: [] },
          (consumeUpdate (some 1) tInst).2.1, (consumeUpdate (some 1) tInst).2.2) ∧
      x'.opened_at = some 4 ∧
      x'.quantity = (consumeUpdate (some 1) tInst).1.quantity ∧
      (tInst.expires_at = none → x'.expires_at = some (4 + 10)) ∧
      (∀ old, tInst.expires_at = some old → x'.expires_at = some (min old (4 + 10))) ∧
      (∀ old, tInst.expires_at = some old → ∃ e2, x'.expires_at = some e2 ∧ e2 ≤ old) :=
  use_instance_opening_expiry c6Inv 1 (some 1) 4 10 c6Type [] [] tInst rfl rfl
    (by intro y hy; cases hy) rfl rfl rfl

/-! ## C7: the missing-stock listing -/

/-- Type 1 with minimum 5 recorded. -/
def c7Type : Cli.ItemType := { id := 1, minimum_quantity := some 5 }

/-- First alive instance of type 1, quantity 3. -/
def c7I1 : Cli.ItemInstance :=
  { id := 1, item_type := 1, quantity := 3, expires_at := none, alive := true }

/-- Second alive instance of type 1, quantity 3. -/
def c7I2 : Cli.ItemInstance := { c7I1 with id := 2 }

/-- Store with total active quantity 6 against a minimum of 5. -/
def c7Inv : Cli.Inventory := { item_types := [c7Type], item_instances := [c7I1, c7I2] }

/-- C7: at the failing input — one type with minimum 5 and two of its
instances at quantity 3 each, summing to 6 ≥ 5 — `print_missing`
nevertheless lists both records: the code compares each instance's own
quantity to the minimum (over every instance, trashed ones included) and
returns instances, not the types whose summed active quantity falls short,
contradicting both the claim and the subcommand's own help text. -/
theorem print_missing_per_instance_not_sum :
    Cli.print_missing c7Inv = some [c7I1, c7I2] ∧
    c7I1.quantity + c7I2.quantity = 6 ∧ (5 : Rat) ≤ 6 := by
  refine ⟨?_, by norm_num [c7I1, c7I2], by norm_num⟩
  norm_num [Cli.print_missing, Cli.missingFilter, c7Inv, c7Type, c7I1, c7I2, List.find?]

/-! ## C8: the expired listing -/

/-- Instance whose deadline is exactly the observation time. -/
def c8Inst : Cli.ItemInstance :=
  { id := 1, item_type := 1, quantity := 1, expires_at := some 5, alive := true }

/-- Store holding only `c8Inst`. -/
def c8Inv : Cli.Inventory :=
  { item_types := [{ id := 1, minimum_quantity := none }], item_instances := [c8Inst] }

/-- C8 counterexample: at `now = 5`, the stored instance satisfies the
claim's `expires_at <= now` (5 ≤ 5) yet `print_expired` returns nothing —
the code tests the strict `SystemTime::now() > expiry`. -/
theorem print_expired_omits_boundary :
    Cli.print_expired c8Inv 5 = [] ∧
    c8Inst ∈ c8Inv.item_instances ∧ c8Inst.expires_at = some 5 ∧ 5 ≤ 5 := by
  refine ⟨rfl, ?_, rfl, le_refl 5⟩
  simp [c8Inv]

/-- C8 (amended): with `now` fixed, `print_expired` returns exactly the
stored instances whose `expires_at` is set and strictly earlier than `now`
(`expires_at < now`, not `<=`), regardless of their alive/trashed state;
instances with no `expires_at` never appear. -/
theorem print_expired_strict (inv : Cli.Inventory) (now : Nat) (i : Cli.ItemInstance) :
    i ∈ Cli.print_expired inv now ↔
      i ∈ inv.item_instances ∧ ∃ e2, i.expires_at = some e2 ∧ e2 < now := by
  simp only [Cli.print_expired, List.mem_filter]
  constructor
  · rintro ⟨hm, hp⟩
    refine ⟨hm, ?_⟩
    cases he : i.expires_at with
    | none =>
        rw [he] at hp
        cases hp
    | some e2 =>
        rw [he] at hp
        exact ⟨e2, rfl, by simpa using hp⟩
  · rintro ⟨hm, e2, he, hlt⟩
    refine ⟨hm, ?_⟩
    rw [he]
    simpa using hlt
